import Mathlib

/-!
Shallow embedding of `flask_rest_api/etag.py`.

The module computes a content fingerprint (SHA-1 hex digest of the
canonical JSON serialization, keys sorted) and applies HTTP conditional
request semantics: `validate_etag` guards mutating requests via
`If-Match`, `process_etag` handles `If-None-Match` and attaches the
`ETag` header to responses, `generate_etag` computes the fingerprint.

Data values handed to the serializer are modelled by `JsonValue`.
Python's `json.dumps(data, sort_keys=True)` is modelled by `json_dumps`:
all object keys are sorted (Python sorts `str` keys lexicographically by
code point, which coincides with Lean's linear order on `String`), then
the value is serialized with the default separators.  SHA-1 is embedded
in full over `Nat` byte lists with explicit `% 2 ^ 32` arithmetic.
-/

/-- JSON-serializable data, as handled by `json.dumps` in the source.
Numbers are restricted to integers; objects are association lists. -/
inductive JsonValue where
  | null : JsonValue
  | bool (b : Bool) : JsonValue
  | num (n : Int) : JsonValue
  | str (s : String) : JsonValue
  | arr (xs : List JsonValue) : JsonValue
  | obj (kvs : List (String × JsonValue)) : JsonValue

/-- Key order used by `sort_keys=True`: compare the keys of two entries
with the code-point lexicographic order on strings. -/
def keyLE (p q : String × JsonValue) : Prop := p.1 ≤ q.1

instance : DecidableRel keyLE := fun p q => by
  unfold keyLE; infer_instance

instance : IsTotal (String × JsonValue) keyLE :=
  ⟨fun p q => le_total p.1 q.1⟩

instance : IsTrans (String × JsonValue) keyLE :=
  ⟨fun _ _ _ h h' => le_trans h h'⟩

mutual

/-- Recursively sort every object's entries by key, as `sort_keys=True`
does during serialization. -/
def sortJson : JsonValue → JsonValue
  | .null => .null
  | .bool b => .bool b
  | .num n => .num n
  | .str s => .str s
  | .arr xs => .arr (sortJsonList xs)
  | .obj kvs => .obj (List.insertionSort keyLE (sortJsonKVs kvs))

/-- Sort all objects inside each element of an array. -/
def sortJsonList : List JsonValue → List JsonValue
  | [] => []
  | x :: xs => sortJson x :: sortJsonList xs

/-- Sort all objects inside each value of an object's entry list. -/
def sortJsonKVs : List (String × JsonValue) → List (String × JsonValue)
  | [] => []
  | (k, v) :: kvs => (k, sortJson v) :: sortJsonKVs kvs

end

/-- Lower-case hex digit for a value below 16. -/
def hexDigit (n : Nat) : Char :=
  if n < 10 then Char.ofNat (48 + n) else Char.ofNat (87 + n)

/-- Four-digit hex rendering of a value below `2 ^ 16`, used by `\uXXXX`
escapes. -/
def hexDigit4 (n : Nat) : String :=
  String.mk [hexDigit (n / 4096 % 16), hexDigit (n / 256 % 16),
    hexDigit (n / 16 % 16), hexDigit (n % 16)]

/-- Escape one character the way `json.dumps` does with its default
`ensure_ascii=True`: short escapes for quote, backslash and the common
control characters, `\uXXXX` (with surrogate pairs above the BMP) for
other characters outside printable ASCII. -/
def escapeChar (c : Char) : String :=
  let n := c.toNat
  if n = 34 then "\\\""
  else if n = 92 then "\\\\"
  else if n = 10 then "\\n"
  else if n = 13 then "\\r"
  else if n = 9 then "\\t"
  else if n = 8 then "\\b"
  else if n = 12 then "\\f"
  else if 32 ≤ n ∧ n ≤ 126 then String.mk [c]
  else if n < 65536 then "\\u" ++ hexDigit4 n
  else "\\u" ++ hexDigit4 (55296 + (n - 65536) / 1024) ++
    "\\u" ++ hexDigit4 (56320 + (n - 65536) % 1024)

/-- JSON string literal: quoted, characters escaped. -/
def encodeJsonString (s : String) : String :=
  "\"" ++ String.join (s.data.map escapeChar) ++ "\""

mutual

/-- Serialize an (already key-sorted) value with `json.dumps`' default
separators `", "` and `": "`. -/
def dumpRaw : JsonValue → String
  | .null => "null"
  | .bool b => cond b "true" "false"
  | .num n => toString n
  | .str s => encodeJsonString s
  | .arr xs => "[" ++ dumpRawList xs ++ "]"
  | .obj kvs => "\x7b" ++ dumpRawKVs kvs ++ "\x7d"

/-- Comma-separated serialization of array elements. -/
def dumpRawList : List JsonValue → String
  | [] => ""
  | [x] => dumpRaw x
  | x :: y :: xs => dumpRaw x ++ ", " ++ dumpRawList (y :: xs)

/-- Comma-separated serialization of object entries, `"key": value`. -/
def dumpRawKVs : List (String × JsonValue) → String
  | [] => ""
  | [(k, v)] => encodeJsonString k ++ ": " ++ dumpRaw v
  | (k, v) :: kv :: kvs =>
    encodeJsonString k ++ ": " ++ dumpRaw v ++ ", " ++ dumpRawKVs (kv :: kvs)

end

/-- `json.dumps(data, sort_keys=True)`: canonical serialization with all
object keys sorted. -/
def json_dumps (d : JsonValue) : String := dumpRaw (sortJson d)

/-- UTF-8 encoding of one character, as a list of byte values. -/
def utf8Char (c : Char) : List Nat :=
  let n := c.toNat
  if n < 128 then [n]
  else if n < 2048 then [192 + n / 64, 128 + n % 64]
  else if n < 65536 then [224 + n / 4096, 128 + n / 64 % 64, 128 + n % 64]
  else [240 + n / 262144, 128 + n / 4096 % 64, 128 + n / 64 % 64, 128 + n % 64]

/-- UTF-8 encoding of a string (`bytes(s, 'utf-8')` in the source). -/
def utf8Encode (s : String) : List Nat :=
  (s.data.map utf8Char).flatten

/-- Truncation to a 32-bit word. -/
def w32 (x : Nat) : Nat := x % 4294967296

/-- Left rotation of a 32-bit word by `n` bits. -/
def rotl (n x : Nat) : Nat := w32 ((x <<< n) ||| (x >>> (32 - n)))

/-- Big-endian byte rendering of `n` on `k` bytes. -/
def beBytes : Nat → Nat → List Nat
  | 0, _ => []
  | k + 1, n => beBytes k (n / 256) ++ [n % 256]

/-- SHA-1 message padding: append `0x80`, zero bytes up to 56 mod 64,
then the bit length on 8 big-endian bytes. -/
def sha1Pad (msg : List Nat) : List Nat :=
  let len := msg.length
  let zeros := (120 - (len + 1) % 64) % 64
  msg ++ 128 :: List.replicate zeros 0 ++ beBytes 8 (len * 8)

/-- Group a byte list into big-endian 32-bit words. -/
def toWords : List Nat → List Nat
  | b0 :: b1 :: b2 :: b3 :: rest =>
    (((b0 * 256 + b1) * 256 + b2) * 256 + b3) :: toWords rest
  | _ => []

/-- One step of the SHA-1 message schedule extension. -/
def extendStep (w : List Nat) : List Nat :=
  let n := w.length
  w ++ [rotl 1 ((((w.getD (n - 3) 0).xor (w.getD (n - 8) 0)).xor
    (w.getD (n - 14) 0)).xor (w.getD (n - 16) 0))]

/-- Extend the 16 block words to the 80 schedule words. -/
def sha1Schedule (w : List Nat) : List Nat :=
  (List.range 64).foldl (fun acc _ => extendStep acc) w

/-- The five 32-bit words of the SHA-1 running state. -/
structure Sha1State where
  a : Nat
  b : Nat
  c : Nat
  d : Nat
  e : Nat

/-- The SHA-1 round function `f_t`. -/
def sha1F (t b c d : Nat) : Nat :=
  if t < 20 then (b.land c).lor ((b.xor 4294967295).land d)
  else if t < 40 then (b.xor c).xor d
  else if t < 60 then ((b.land c).lor (b.land d)).lor (c.land d)
  else (b.xor c).xor d

/-- The SHA-1 round constant `K_t`. -/
def sha1K (t : Nat) : Nat :=
  if t < 20 then 1518500249
  else if t < 40 then 1859775393
  else if t < 60 then 2400959708
  else 3395469782

/-- One SHA-1 compression round. -/
def sha1Round (st : Sha1State) (t wt : Nat) : Sha1State :=
  ⟨w32 (rotl 5 st.a + sha1F t st.b st.c st.d + st.e + sha1K t + wt),
    st.a, rotl 30 st.b, st.c, st.d⟩

/-- Process one 64-byte block. -/
def sha1Block (h : Sha1State) (block : List Nat) : Sha1State :=
  let ws := sha1Schedule (toWords block)
  let st := (List.range 80).foldl (fun st t => sha1Round st t (ws.getD t 0)) h
  ⟨w32 (h.a + st.a), w32 (h.b + st.b), w32 (h.c + st.c),
    w32 (h.d + st.d), w32 (h.e + st.e)⟩

/-- Split a byte list into 64-byte chunks. -/
def chunks64 (l : List Nat) : List (List Nat) :=
  if _h : l = [] then []
  else l.take 64 :: chunks64 (l.drop 64)
termination_by l.length
decreasing_by
  simp only [List.length_drop]
  exact Nat.sub_lt (List.length_pos.mpr _h) (by omega)

/-- The SHA-1 initial state. -/
def sha1Init : Sha1State :=
  ⟨1732584193, 4023233417, 2562383102, 271733878, 3285377520⟩

/-- SHA-1 of a byte list, as the final five-word state. -/
def sha1Words (msg : List Nat) : Sha1State :=
  (chunks64 (sha1Pad msg)).foldl sha1Block sha1Init

/-- Eight-digit lower-case hex rendering of a 32-bit word. -/
def hexWord (n : Nat) : String :=
  hexDigit4 (n / 65536) ++ hexDigit4 (n % 65536)

/-- `hashlib.sha1(bytes).hexdigest()`: 40-character lower-case hex
digest. -/
def sha1Hex (msg : List Nat) : String :=
  let h := sha1Words msg
  hexWord h.a ++ hexWord h.b ++ hexWord h.c ++ hexWord h.d ++ hexWord h.e

/-- `generate_etag(data)` from the source: SHA-1 hex digest of the UTF-8
bytes of `json.dumps(data, sort_keys=True)`. -/
def generate_etag (data : JsonValue) : String :=
  sha1Hex (utf8Encode (json_dumps data))

/-- The Flask application configuration, restricted to the one key the
module reads: `ETAG_ENABLED`, which may be absent. -/
structure AppConfig where
  etagEnabledKey : Option Bool

/-- `is_etag_enabled(app)`: `app.config.get('ETAG_ENABLED', False)`. -/
def is_etag_enabled (app : AppConfig) : Bool :=
  app.etagEnabledKey.getD false

/-- The incoming HTTP request, restricted to the fields the module
reads: the method and the two conditional header lists. -/
structure HttpRequest where
  method : String
  if_match : List String
  if_none_match : List String

/-- The `schema` argument.  `schemaInst dump` models a marshmallow
`Schema` instance whose `dump(item)[0]` is `dump item`; `notSchema`
models any other value (including `None`), which fails the
`isinstance(schema, ma.Schema)` check. -/
inductive SchemaArg where
  | schemaInst (dump : JsonValue → JsonValue) : SchemaArg
  | notSchema : SchemaArg

/-- The `endpoint` argument: a `MethodView` instance, whose `_get_item`
attribute may be absent, or a plain function.  A fetch callback is
modelled by the item it returns (it is called exactly once, with the
view arguments). -/
inductive EndpointArg where
  | methodView (getItemAttr : Option JsonValue) : EndpointArg
  | function : EndpointArg

/-- The outcomes raised by the module: `ValueError`, `AttributeError`,
the `PreconditionRequired` (428) and `NotModified` (304) exceptions, and
`abort(code)` from the argument parser. -/
inductive EtagErr where
  | valueError : EtagErr
  | attributeError : EtagErr
  | preconditionRequired : EtagErr
  | notModified : EtagErr
  | abortStatus (code : Nat) : EtagErr
deriving DecidableEq

/-- `validate_etag(endpoint, schema, get_item_func, **kwargs)` from the
source, as a function from the ambient state (app config and request)
and the arguments to its outcome.  The source raises `ValueError` on a
non-schema serializer before anything else; with the feature enabled and
a mutating method it resolves the fetch callback (falling back to the
`MethodView`'s `_get_item`, raising `AttributeError` when both are
missing), computes the fingerprint of the fetched item, raises
`PreconditionRequired` on an empty `If-Match`, and aborts with 412 when
the fingerprint is not among the supplied values. -/
def validate_etag (app : AppConfig) (req : HttpRequest)
    (endpoint : EndpointArg) (schema : SchemaArg)
    (get_item_func : Option JsonValue) : Except EtagErr Unit :=
  match schema with
  | .notSchema => .error .valueError
  | .schemaInst dump =>
    if is_etag_enabled app then
      if req.method = "PUT" ∨ req.method = "DELETE" ∨ req.method = "PATCH" then
        let resolved : Except EtagErr (Option JsonValue) :=
          match endpoint, get_item_func with
          | .methodView attr, none =>
            match attr with
            | some item => .ok (some item)
            | none => .error .attributeError
          | _, g => .ok g
        match resolved with
        | .error e => .error e
        | .ok none => .error .attributeError
        | .ok (some item) =>
          let etag_value := generate_etag (dump item)
          if req.if_match = [] then .error .preconditionRequired
          else if etag_value ∈ req.if_match then .ok ()
          else .error (.abortStatus 412)
      else .ok ()
    else .ok ()

/-- The outgoing response, restricted to what the module touches: the
`ETag` header (absent until `set_etag` is called) and an opaque payload
it never modifies. -/
structure HttpResponse where
  etag : Option String
  body : String
deriving DecidableEq

/-- `response.set_etag(value)`: set the `ETag` header. -/
def HttpResponse.set_etag (r : HttpResponse) (v : String) : HttpResponse :=
  ⟨some v, r.body⟩

/-- The `response` argument: a Flask `Response` instance or any other
value, which fails the `isinstance(response, Response)` check. -/
inductive ResponseArg where
  | response (resp : HttpResponse) : ResponseArg
  | notResponse : ResponseArg
deriving DecidableEq

/-- `process_etag(response, schema, data, validate)` from the source, as
a function from the ambient state and the arguments to its outcome (the
possibly updated response).  With `validate=False` the whole body is
skipped.  Otherwise the source raises `ValueError` on a non-response or
non-schema argument; then, with the feature enabled and a non-`DELETE`
method, it computes the fingerprint of `data`, raises `NotModified` when
the method is `GET` and the fingerprint appears in a non-empty
`If-None-Match`, and otherwise sets the `ETag` header to the
fingerprint. -/
def process_etag (app : AppConfig) (req : HttpRequest)
    (response : ResponseArg) (schema : SchemaArg) (data : JsonValue)
    (validate : Bool) : Except EtagErr ResponseArg :=
  if validate then
    match response with
    | .notResponse => .error .valueError
    | .response resp =>
      match schema with
      | .notSchema => .error .valueError
      | .schemaInst dump =>
        if is_etag_enabled app ∧ req.method ≠ "DELETE" then
          let etag_value := generate_etag (dump data)
          if req.method = "GET" ∧ req.if_none_match ≠ [] ∧
              etag_value ∈ req.if_none_match then
            .error .notModified
          else .ok (.response (resp.set_etag etag_value))
        else .ok (.response resp)
  else .ok response

/-- Two lists of entries that are permutations of each other, both
sorted by key, with no duplicate key, are equal. -/
theorem sorted_perm_nodup_eq :
    ∀ l1 l2 : List (String × JsonValue), l1.Perm l2 →
      l1.Sorted keyLE → l2.Sorted keyLE → (l1.map Prod.fst).Nodup →
      l1 = l2 := by
  intro l1
  induction l1 with
  | nil => intro l2 hp _ _ _; exact hp.nil_eq
  | cons a t1 ih =>
    intro l2 hp hs1 hs2 hnd
    cases l2 with
    | nil => exact absurd hp.symm.nil_eq (by simp)
    | cons b t2 =>
      simp only [List.map_cons, List.nodup_cons] at hnd
      by_cases hab : a = b
      · subst hab
        rw [ih t2 hp.cons_inv (List.sorted_cons.mp hs1).2
          (List.sorted_cons.mp hs2).2 hnd.2]
      · exfalso
        have hbt1 : b ∈ t1 := by
          rcases List.mem_cons.mp (hp.symm.subset (List.mem_cons_self b t2)) with
            h | h
          · exact absurd h.symm hab
          · exact h
        have hat2 : a ∈ t2 := by
          rcases List.mem_cons.mp (hp.subset (List.mem_cons_self a t1)) with
            h | h
          · exact absurd h hab
          · exact h
        have hkey : a.1 = b.1 :=
          le_antisymm ((List.sorted_cons.mp hs1).1 b hbt1)
            ((List.sorted_cons.mp hs2).1 a hat2)
        exact hnd.1 (hkey ▸ List.mem_map_of_mem Prod.fst hbt1)

/-- Sorting by key is invariant under permutation of entries when the
keys are distinct. -/
theorem insertionSort_eq_of_perm (l1 l2 : List (String × JsonValue))
    (hp : l1.Perm l2) (hnd : (l1.map Prod.fst).Nodup) :
    List.insertionSort keyLE l1 = List.insertionSort keyLE l2 := by
  apply sorted_perm_nodup_eq
  · exact (List.perm_insertionSort keyLE l1).trans
      (hp.trans (List.perm_insertionSort keyLE l2).symm)
  · exact List.sorted_insertionSort keyLE l1
  · exact List.sorted_insertionSort keyLE l2
  · exact (((List.perm_insertionSort keyLE l1).map Prod.fst).nodup_iff).mpr hnd

/-- `sortJsonKVs` maps `sortJson` over the values and keeps keys. -/
theorem sortJsonKVs_eq_map (l : List (String × JsonValue)) :
    sortJsonKVs l = l.map (fun kv => (kv.1, sortJson kv.2)) := by
  induction l with
  | nil => rfl
  | cons kv t ih => cases kv; simp [sortJsonKVs, ih]

/-- `sortJsonKVs` preserves the key list. -/
theorem sortJsonKVs_keys (l : List (String × JsonValue)) :
    (sortJsonKVs l).map Prod.fst = l.map Prod.fst := by
  induction l with
  | nil => rfl
  | cons kv t ih => cases kv; simp [sortJsonKVs, ih]

/-- C1: `generate_etag(data)` is the SHA-1 hex digest of the UTF-8
bytes of the JSON serialization of `data` with object keys sorted; it is
deterministic, and two mappings equal as maps (any ordering of their
distinct keys) yield the same fingerprint. -/
theorem generate_etag_canonical (l1 l2 : List (String × JsonValue))
    (hp : l1.Perm l2) (hnd : (l1.map Prod.fst).Nodup) :
    generate_etag (JsonValue.obj l1) = generate_etag (JsonValue.obj l2) ∧
    generate_etag (JsonValue.obj l1) =
      sha1Hex (utf8Encode (json_dumps (JsonValue.obj l1))) := by
  refine ⟨?_, rfl⟩
  unfold generate_etag json_dumps
  have hsort : sortJson (JsonValue.obj l1) = sortJson (JsonValue.obj l2) := by
    simp only [sortJson]
    congr 1
    apply insertionSort_eq_of_perm
    · rw [sortJsonKVs_eq_map, sortJsonKVs_eq_map]
      exact hp.map _
    · rw [sortJsonKVs_keys]
      exact hnd
  rw [hsort]

/-- Witness for C1 at a two-entry mapping listed in both orders. -/
theorem generate_etag_canonical_witness :
    ([("b", JsonValue.num 1), ("a", JsonValue.num 2)] :
        List (String × JsonValue)).Perm
      [("a", JsonValue.num 2), ("b", JsonValue.num 1)] ∧
    (([("b", JsonValue.num 1), ("a", JsonValue.num 2)] :
        List (String × JsonValue)).map Prod.fst).Nodup ∧
    generate_etag (JsonValue.obj [("b", JsonValue.num 1), ("a", JsonValue.num 2)]) =
      generate_etag (JsonValue.obj [("a", JsonValue.num 2), ("b", JsonValue.num 1)]) :=
  ⟨List.Perm.swap _ _ _, by decide,
    (generate_etag_canonical _ _ (List.Perm.swap _ _ _) (by decide)).1⟩

/-- C2: on a mutating request (PUT, DELETE or PATCH) with the feature
enabled, a valid schema and an item-fetch function, an empty `If-Match`
makes `validate_etag` raise `PreconditionRequired` (428). -/
theorem validate_etag_missing_if_match (app : AppConfig)
    (req : HttpRequest) (endpoint : EndpointArg)
    (dump : JsonValue → JsonValue) (item : JsonValue)
    (hen : is_etag_enabled app = true)
    (hm : req.method = "PUT" ∨ req.method = "DELETE" ∨ req.method = "PATCH")
    (hif : req.if_match = []) :
    validate_etag app req endpoint (.schemaInst dump) (some item) =
      .error .preconditionRequired := by
  unfold validate_etag
  cases endpoint <;> simp [hen, hif, if_pos hm]

/-- Witness for C2: a PUT with no `If-Match`, feature on. -/
theorem validate_etag_missing_if_match_witness :
    is_etag_enabled ⟨some true⟩ = true ∧
    (("PUT" : String) = "PUT" ∨ ("PUT" : String) = "DELETE" ∨
      ("PUT" : String) = "PATCH") ∧
    validate_etag ⟨some true⟩ ⟨"PUT", [], []⟩ .function
      (.schemaInst id) (some .null) = .error .preconditionRequired :=
  ⟨rfl, Or.inl rfl,
    validate_etag_missing_if_match ⟨some true⟩ ⟨"PUT", [], []⟩ .function
      id .null rfl (Or.inl rfl) rfl⟩

/-- C3: on a mutating request with the feature enabled and a non-empty
`If-Match` list, `validate_etag` aborts with 412 exactly when the
computed fingerprint is not among the supplied values, and returns
normally when it is. -/
theorem validate_etag_if_match_decision (app : AppConfig)
    (req : HttpRequest) (endpoint : EndpointArg)
    (dump : JsonValue → JsonValue) (item : JsonValue)
    (hen : is_etag_enabled app = true)
    (hm : req.method = "PUT" ∨ req.method = "DELETE" ∨ req.method = "PATCH")
    (hif : req.if_match ≠ []) :
    (validate_etag app req endpoint (.schemaInst dump) (some item) =
        .error (.abortStatus 412) ↔
      generate_etag (dump item) ∉ req.if_match) ∧
    (generate_etag (dump item) ∈ req.if_match →
      validate_etag app req endpoint (.schemaInst dump) (some item) =
        .ok ()) := by
  unfold validate_etag
  by_cases hmem : generate_etag (dump item) ∈ req.if_match <;>
    cases endpoint <;> simp [hen, hif, hmem, if_pos hm]

/-- Witness for C3: a PATCH with a stale `If-Match`, feature on. -/
theorem validate_etag_if_match_decision_witness :
    is_etag_enabled ⟨some true⟩ = true ∧
    (("PATCH" : String) = "PUT" ∨ ("PATCH" : String) = "DELETE" ∨
      ("PATCH" : String) = "PATCH") ∧
    (⟨"PATCH", ["stale"], []⟩ : HttpRequest).if_match ≠ [] ∧
    ((validate_etag ⟨some true⟩ ⟨"PATCH", ["stale"], []⟩ .function
        (.schemaInst id) (some .null) = .error (.abortStatus 412) ↔
      generate_etag (id .null) ∉
        (⟨"PATCH", ["stale"], []⟩ : HttpRequest).if_match) ∧
     (generate_etag (id .null) ∈
        (⟨"PATCH", ["stale"], []⟩ : HttpRequest).if_match →
      validate_etag ⟨some true⟩ ⟨"PATCH", ["stale"], []⟩ .function
        (.schemaInst id) (some .null) = .ok ())) :=
  ⟨rfl, Or.inr (Or.inr rfl), by simp,
    validate_etag_if_match_decision ⟨some true⟩ ⟨"PATCH", ["stale"], []⟩
      .function id .null rfl (Or.inr (Or.inr rfl)) (by simp)⟩

/-- C4: on a GET with the feature enabled, a computed fingerprint that
appears in `If-None-Match` makes `process_etag` raise `NotModified`
(304). -/
theorem process_etag_not_modified (app : AppConfig) (req : HttpRequest)
    (resp : HttpResponse) (dump : JsonValue → JsonValue) (data : JsonValue)
    (hen : is_etag_enabled app = true)
    (hm : req.method = "GET")
    (hmem : generate_etag (dump data) ∈ req.if_none_match) :
    process_etag app req (.response resp) (.schemaInst dump) data true =
      .error .notModified := by
  have hne : req.if_none_match ≠ [] := by
    intro h
    rw [h] at hmem
    exact absurd hmem (List.not_mem_nil _)
  have hnd : req.method ≠ "DELETE" := by rw [hm]; decide
  unfold process_etag
  simp [hen, hm, hmem, hne, hnd]

/-- Witness for C4: the fingerprint of the served data is offered in
`If-None-Match`. -/
theorem process_etag_not_modified_witness :
    is_etag_enabled ⟨some true⟩ = true ∧
    (⟨"GET", [], [generate_etag .null]⟩ : HttpRequest).method = "GET" ∧
    generate_etag (id .null) ∈
      (⟨"GET", [], [generate_etag .null]⟩ : HttpRequest).if_none_match ∧
    process_etag ⟨some true⟩ ⟨"GET", [], [generate_etag .null]⟩
      (.response ⟨none, "payload"⟩) (.schemaInst id) .null true =
      .error .notModified :=
  ⟨rfl, rfl, List.mem_singleton.mpr rfl,
    process_etag_not_modified ⟨some true⟩ ⟨"GET", [], [generate_etag .null]⟩
      ⟨none, "payload"⟩ id .null rfl rfl (List.mem_singleton.mpr rfl)⟩

/-- C5: on a GET with the feature enabled, when the computed fingerprint
is not in `If-None-Match`, `process_etag` returns the response with its
`ETag` header set to the fingerprint. -/
theorem process_etag_sets_etag (app : AppConfig) (req : HttpRequest)
    (resp : HttpResponse) (dump : JsonValue → JsonValue) (data : JsonValue)
    (hen : is_etag_enabled app = true)
    (hm : req.method = "GET")
    (hmem : generate_etag (dump data) ∉ req.if_none_match) :
    process_etag app req (.response resp) (.schemaInst dump) data true =
      .ok (.response (resp.set_etag (generate_etag (dump data)))) := by
  have hnd : req.method ≠ "DELETE" := by rw [hm]; decide
  unfold process_etag
  simp [hen, hm, hmem, hnd]

/-- Witness for C5: a GET with an empty `If-None-Match` gets the
fingerprint attached. -/
theorem process_etag_sets_etag_witness :
    is_etag_enabled ⟨some true⟩ = true ∧
    (⟨"GET", [], []⟩ : HttpRequest).method = "GET" ∧
    generate_etag (id .null) ∉ (⟨"GET", [], []⟩ : HttpRequest).if_none_match ∧
    process_etag ⟨some true⟩ ⟨"GET", [], []⟩ (.response ⟨none, "payload"⟩)
      (.schemaInst id) .null true =
      .ok (.response (HttpResponse.set_etag ⟨none, "payload"⟩
        (generate_etag (id .null)))) :=
  ⟨rfl, rfl, List.not_mem_nil _,
    process_etag_sets_etag ⟨some true⟩ ⟨"GET", [], []⟩ ⟨none, "payload"⟩
      id .null rfl rfl (List.not_mem_nil _)⟩

/-- Counterexample to C6: with `ETAG_ENABLED` false, `validate_etag` is
not a no-op for every call — an invalid schema still raises
`ValueError`, because the schema check precedes the feature check. -/
theorem validate_etag_disabled_still_raises :
    is_etag_enabled ⟨some false⟩ = false ∧
    validate_etag ⟨some false⟩ ⟨"GET", [], []⟩ .function .notSchema none =
      .error .valueError :=
  ⟨rfl, rfl⟩

/-- C6 (amended): with `ETAG_ENABLED` false and well-formed arguments
(a schema instance, and a response instance for `process_etag`), both
functions are no-ops: no error, no precondition, no header change. -/
theorem etag_disabled_noop (app : AppConfig) (req : HttpRequest)
    (endpoint : EndpointArg) (dump : JsonValue → JsonValue)
    (gif : Option JsonValue) (resp : HttpResponse) (data : JsonValue)
    (validate : Bool)
    (hdis : is_etag_enabled app = false) :
    validate_etag app req endpoint (.schemaInst dump) gif = .ok () ∧
    process_etag app req (.response resp) (.schemaInst dump) data validate =
      .ok (.response resp) := by
  constructor
  · unfold validate_etag
    simp [hdis]
  · unfold process_etag
    cases validate <;> simp [hdis]

/-- Witness for amended C6: feature off, a PUT with no `If-Match`
passes untouched and a GET response keeps its headers. -/
theorem etag_disabled_noop_witness :
    is_etag_enabled ⟨some false⟩ = false ∧
    validate_etag ⟨some false⟩ ⟨"PUT", [], []⟩ .function
      (.schemaInst id) none = .ok () ∧
    process_etag ⟨some false⟩ ⟨"PUT", [], []⟩ (.response ⟨none, "payload"⟩)
      (.schemaInst id) .null true = .ok (.response ⟨none, "payload"⟩) :=
  ⟨rfl,
    (etag_disabled_noop ⟨some false⟩ ⟨"PUT", [], []⟩ .function id none
      ⟨none, "payload"⟩ .null true rfl).1,
    (etag_disabled_noop ⟨some false⟩ ⟨"PUT", [], []⟩ .function id none
      ⟨none, "payload"⟩ .null true rfl).2⟩

/-- Counterexample to C7: a mutating request with a missing item-fetch
function raises nothing when the feature is disabled — the fetch lookup
sits inside the `is_etag_enabled` branch. -/
theorem missing_fetch_silent_when_disabled :
    is_etag_enabled ⟨some false⟩ = false ∧
    validate_etag ⟨some false⟩ ⟨"PUT", [], []⟩ .function
      (.schemaInst id) none = .ok () :=
  ⟨rfl, rfl⟩

/-- C7 (amended): a serializer that is not a schema instance makes
`validate_etag`, and `process_etag` with `validate=True`, raise an
invalid-argument error immediately, regardless of configuration, method
and headers (likewise a non-response argument to `process_etag`); a
missing item-fetch function on a mutating request makes `validate_etag`
raise immediately when the feature is enabled.  In every such case the
error precedes any conditional-header outcome (428/412/304) and is not
retried. -/
theorem invalid_args_raise (app : AppConfig) (req : HttpRequest)
    (endpoint : EndpointArg) (dump : JsonValue → JsonValue)
    (data : JsonValue) (gif : Option JsonValue) (respArg : ResponseArg) :
    validate_etag app req endpoint .notSchema gif = .error .valueError ∧
    process_etag app req respArg .notSchema data true = .error .valueError ∧
    process_etag app req .notResponse (.schemaInst dump) data true =
      .error .valueError ∧
    (is_etag_enabled app = true →
      (req.method = "PUT" ∨ req.method = "DELETE" ∨ req.method = "PATCH") →
      validate_etag app req .function (.schemaInst dump) none =
        .error .attributeError ∧
      validate_etag app req (.methodView none) (.schemaInst dump) none =
        .error .attributeError) := by
  refine ⟨rfl, ?_, rfl, ?_⟩
  · cases respArg <;> rfl
  · intro hen hm
    constructor <;> (unfold validate_etag; simp [hen, if_pos hm])

/-- Witness for amended C7: feature on, a PUT with no fetch callback. -/
theorem invalid_args_raise_witness :
    is_etag_enabled ⟨some true⟩ = true ∧
    (("PUT" : String) = "PUT" ∨ ("PUT" : String) = "DELETE" ∨
      ("PUT" : String) = "PATCH") ∧
    validate_etag ⟨some true⟩ ⟨"PUT", ["x"], []⟩ .function
      (.schemaInst id) none = .error .attributeError ∧
    validate_etag ⟨some true⟩ ⟨"PUT", ["x"], []⟩ .function .notSchema none =
      .error .valueError :=
  ⟨rfl, Or.inl rfl,
    ((invalid_args_raise ⟨some true⟩ ⟨"PUT", ["x"], []⟩ .function id .null
      none .notResponse).2.2.2 rfl (Or.inl rfl)).1,
    (invalid_args_raise ⟨some true⟩ ⟨"PUT", ["x"], []⟩ .function id .null
      none .notResponse).1⟩

/-- C8: with the `ETAG_ENABLED` key absent from the configuration,
`is_etag_enabled` returns `False` — the feature is off by default. -/
theorem is_etag_enabled_default (app : AppConfig)
    (h : app.etagEnabledKey = none) : is_etag_enabled app = false := by
  simp [is_etag_enabled, h]

/-- Witness for C8 on the empty configuration. -/
theorem is_etag_enabled_default_witness :
    (AppConfig.mk none).etagEnabledKey = none ∧
    is_etag_enabled (AppConfig.mk none) = false :=
  ⟨rfl, is_etag_enabled_default (AppConfig.mk none) rfl⟩

/-- C9: on a DELETE request, `process_etag` never raises `NotModified`
and never changes the response, whatever the configuration. -/
theorem process_etag_delete_frame (app : AppConfig) (req : HttpRequest)
    (respArg : ResponseArg) (schema : SchemaArg) (data : JsonValue)
    (validate : Bool)
    (h : req.method = "DELETE") :
    process_etag app req respArg schema data validate ≠
      .error .notModified ∧
    ∀ r, process_etag app req respArg schema data validate = .ok r →
      r = respArg := by
  unfold process_etag
  cases validate with
  | false => simp
  | true =>
    cases respArg with
    | notResponse => simp
    | response resp =>
      cases schema with
      | notSchema => simp
      | schemaInst dump => simp [h]

/-- Witness for C9: a DELETE with the feature enabled and a matching
`If-None-Match` still gets no 304 and no header change. -/
theorem process_etag_delete_frame_witness :
    (⟨"DELETE", [], [generate_etag .null]⟩ : HttpRequest).method =
      "DELETE" ∧
    (process_etag ⟨some true⟩ ⟨"DELETE", [], [generate_etag .null]⟩
        (.response ⟨none, "payload"⟩) (.schemaInst id) .null true ≠
      .error .notModified ∧
    ∀ r, process_etag ⟨some true⟩ ⟨"DELETE", [], [generate_etag .null]⟩
        (.response ⟨none, "payload"⟩) (.schemaInst id) .null true = .ok r →
      r = .response ⟨none, "payload"⟩) :=
  ⟨rfl,
    process_etag_delete_frame ⟨some true⟩
      ⟨"DELETE", [], [generate_etag .null]⟩ (.response ⟨none, "payload"⟩)
      (.schemaInst id) .null true rfl⟩

/-- C10: with `validate=False`, `process_etag` is a complete no-op: no
error even for invalid arguments, no `NotModified`, response returned
unchanged, regardless of configuration, method and headers. -/
theorem process_etag_no_validate (app : AppConfig) (req : HttpRequest)
    (respArg : ResponseArg) (schema : SchemaArg) (data : JsonValue) :
    process_etag app req respArg schema data false = .ok respArg := rfl
